import Mathlib

set_option maxRecDepth 8000

/-! Shallow embedding of the V-Split engine adapter (`FFmpegService` in
`services/ffmpegService.ts`) and of the UI-side validation and settings
handlers (`VideoUploader.validateAndPass`, `ClipSettings`, `App`), together
with theorems settling the specification claims about them.

External effects — network fetches, the WebAssembly FFmpeg engine, the DOM,
wall-clock time — are modelled by environment records supplying the outcome
of each external operation; the adapter's own control flow, state updates,
log emissions, progress callbacks and filesystem bookkeeping are translated
directly from the source. -/

namespace VSplit

/-- The single-quote character (codepoint 39). -/
def squote : Char := Char.ofNat 39

/-- A one-character string holding `squote`. -/
def sq : String := String.mk [squote]

/-- JS `String.prototype.startsWith`. -/
def jsStartsWith (s p : String) : Bool := p.data.isPrefixOf s.data

/-- JS `String.prototype.endsWith`. -/
def jsEndsWith (s p : String) : Bool := p.data.isSuffixOf s.data

/-- The fixed wrapper-resource base location (`baseURL`, line 39). -/
def baseURL : String := "https://cdn.jsdelivr.net/npm/@ffmpeg/ffmpeg@0.12.10/dist/esm"

/-- The fixed core-resource base location (`coreBase`, line 40). -/
def coreBase : String := "https://cdn.jsdelivr.net/npm/@ffmpeg/core@0.12.6/dist/esm"

/-! ### The worker-import rewriting step

`load` rewrites the fetched worker script with
`workerScript.replace(/from\s*['"]\.\/(.*?)['"]/g, (match, p1) =>
`from '${baseURL}/${p1}'`)` (lines 61-64).  The regex is embedded as a
character-list scanner: `\s` is the JS whitespace class (restricted to its
ASCII members, the ones that can occur in script text here), `['"]` is
either quote character, and the lazy `(.*?)` capture runs to the first
quote character, never across a line terminator (JS `.`). -/

/-- Members of the JS `\s` class relevant to script text. -/
def isJsSpace (c : Char) : Bool :=
  c = ' ' || c = Char.ofNat 9 || c = Char.ofNat 10 || c = Char.ofNat 13 ||
  c = Char.ofNat 11 || c = Char.ofNat 12

/-- The regex character class `['"]`. -/
def isQuoteChar (c : Char) : Bool := c = '"' || c = squote

/-- JS line terminators excluded by `.` (the ASCII ones). -/
def isLineTerm (c : Char) : Bool := c = Char.ofNat 10 || c = Char.ofNat 13

/-- `(.*?)['"]`: lazily consume characters (none a line terminator) up to the
first quote character; return the capture and the remainder after the
closing quote. -/
def scanCapture : List Char → Option (List Char × List Char)
  | [] => none
  | c :: cs =>
    if isQuoteChar c then some ([], cs)
    else if isLineTerm c then none
    else
      match scanCapture cs with
      | some (cap, rest) => some (c :: cap, rest)
      | none => none

/-- Try to match `from\s*['"]\.\/(.*?)['"]` at the head of the list,
returning the capture group and the remainder after the match. -/
def matchFromImport : List Char → Option (List Char × List Char)
  | 'f' :: 'r' :: 'o' :: 'm' :: rest =>
    match rest.dropWhile isJsSpace with
    | q :: '.' :: '/' :: rest2 => if isQuoteChar q then scanCapture rest2 else none
    | _ => none
  | _ => none

/-- The replacement template `from '${baseURL}/${p1}'`. -/
def importReplacement (base cap : List Char) : List Char :=
  "from ".data ++ squote :: (base ++ '/' :: (cap ++ [squote]))

/-- Left-to-right, non-overlapping global replacement, with fuel (one unit
per input character suffices, since every step consumes at least one
character). -/
def replaceImportsAux (base : List Char) : Nat → List Char → List Char
  | 0, l => l
  | _ + 1, [] => []
  | fuel + 1, c :: cs =>
    match matchFromImport (c :: cs) with
    | some (cap, rest) => importReplacement base cap ++ replaceImportsAux base fuel rest
    | none => c :: replaceImportsAux base fuel cs

/-- `String.prototype.replace` with the global import-rewriting regex. -/
def replaceImports (base l : List Char) : List Char :=
  replaceImportsAux base l.length l

/-- The worker-script patching step (lines 61-64), on `String`. -/
def patchWorkerImports (base s : String) : String :=
  String.mk (replaceImports base.data s.data)

/-- Whether the rewriting regex matches anywhere in the text. -/
def hasFromImport : List Char → Bool
  | [] => false
  | c :: cs => (matchFromImport (c :: cs)).isSome || hasFromImport cs

theorem replaceImportsAux_nil (base : List Char) (fuel : Nat) :
    replaceImportsAux base fuel [] = [] := by
  cases fuel <;> rfl

theorem replaceImportsAux_no_match (base : List Char) :
    ∀ (fuel : Nat) (l : List Char), hasFromImport l = false →
      replaceImportsAux base fuel l = l := by
  intro fuel
  induction fuel with
  | zero => intro l _; rfl
  | succ n ih =>
    intro l h
    cases l with
    | nil => rfl
    | cons c cs =>
      simp only [hasFromImport, Bool.or_eq_false_iff] at h
      cases hm : matchFromImport (c :: cs) with
      | some v => rw [hm] at h; simp at h
      | none =>
        have h2 : hasFromImport cs = false := h.2
        simp only [replaceImportsAux, hm, ih cs h2]

/-- A text the regex does not match anywhere is returned unchanged. -/
theorem replaceImports_no_match (base : List Char) (l : List Char)
    (h : hasFromImport l = false) : replaceImports base l = l :=
  replaceImportsAux_no_match base l.length l h

theorem dropWhile_space_append (sp l : List Char)
    (hsp : ∀ c ∈ sp, isJsSpace c = true) :
    List.dropWhile isJsSpace (sp ++ l) = List.dropWhile isJsSpace l := by
  induction sp with
  | nil => rfl
  | cons c cs ih =>
    have hc : isJsSpace c = true := hsp c (List.mem_cons_self c cs)
    simp only [List.cons_append, List.dropWhile_cons, hc, if_true]
    exact ih fun x hx => hsp x (List.mem_cons_of_mem c hx)

theorem scanCapture_closes (cap : List Char) (q : Char)
    (hq : isQuoteChar q = true)
    (hcap : ∀ c ∈ cap, isQuoteChar c = false ∧ isLineTerm c = false) :
    scanCapture (cap ++ [q]) = some (cap, []) := by
  induction cap with
  | nil => simp [scanCapture, hq]
  | cons c cs ih =>
    have hc := hcap c (List.mem_cons_self c cs)
    have ih2 := ih fun x hx => hcap x (List.mem_cons_of_mem c hx)
    simp [scanCapture, hc.1, hc.2, ih2]

theorem matchFromImport_form (sp cap : List Char) (q q2 : Char)
    (hsp : ∀ c ∈ sp, isJsSpace c = true)
    (hq : isQuoteChar q = true) (hq2 : isQuoteChar q2 = true)
    (hcap : ∀ c ∈ cap, isQuoteChar c = false ∧ isLineTerm c = false) :
    matchFromImport ("from".data ++ sp ++ (q :: '.' :: '/' :: (cap ++ [q2]))) =
      some (cap, []) := by
  have hqs : isJsSpace q = false := by
    rcases Bool.or_eq_true_iff.mp hq with h | h <;>
      simp only [decide_eq_true_eq] at h <;> subst h <;> decide
  show matchFromImport ('f' :: 'r' :: 'o' :: 'm' :: (sp ++ (q :: '.' :: '/' :: (cap ++ [q2])))) = _
  simp [matchFromImport, dropWhile_space_append sp _ hsp, List.dropWhile_cons, hqs,
    hq, scanCapture_closes cap q2 hq2 hcap]

theorem matchFromImport_ne_nil : matchFromImport [] = none := rfl

theorem replaceImportsAux_single (base : List Char) (fuel : Nat) (l cap : List Char)
    (h : matchFromImport l = some (cap, [])) :
    replaceImportsAux base (fuel + 1) l = importReplacement base cap := by
  cases l with
  | nil => rw [matchFromImport_ne_nil] at h; cases h
  | cons c cs =>
    simp only [replaceImportsAux, h, replaceImportsAux_nil, List.append_nil]

/-- A text consisting of exactly one relative import (in either quoting
style, with any run of whitespace after `from`) is rewritten to the
replacement template rooted at `base`. -/
theorem replaceImports_single (base l cap : List Char)
    (h : matchFromImport l = some (cap, [])) :
    replaceImports base l = importReplacement base cap := by
  cases l with
  | nil => rw [matchFromImport_ne_nil] at h; cases h
  | cons c cs =>
    show replaceImportsAux base (cs.length + 1) (c :: cs) = _
    exact replaceImportsAux_single base cs.length (c :: cs) cap h

private def miniScript : String :=
  "import A from\"./classes.js\";const x=1;import B from " ++ sq ++ "./util.js" ++ sq ++ ";"

private def miniScriptPatched : String :=
  "import A from " ++ sq ++ baseURL ++ "/classes.js" ++ sq ++
    ";const x=1;import B from " ++ sq ++ baseURL ++ "/util.js" ++ sq ++ ";"

/-- Structure eta: rebuilding a string from its character list is the
identity. -/
theorem string_mk_data (s : String) : String.mk s.data = s := rfl

/-! ### Data model -/

/-- One log line as delivered to the UI log callback (`types.ts`); the
`timestamp` is `Date.now()`, external wall-clock time, supplied by the
environment as a single reading per call. -/
structure LogEntry where
  type : String
  message : String
  timestamp : Nat
deriving Repr, DecidableEq

/-- The adapter's session state: `FFmpegService.loaded` (line 7). -/
structure ServiceState where
  loaded : Bool
deriving Repr, DecidableEq

def mkLog (type message : String) (now : Nat) : LogEntry :=
  { type := type, message := message, timestamp := now }

/-! ### Bootstrap (`FFmpegService.load`, lines 28-100) -/

/-- The externally observable engine/bootstrap steps `load` can perform. -/
inductive LoadOp where
  | fetchWorker
  | patchWorker
  | createWorkerBlob
  | fetchCore
  | fetchWasm
  | initEngine
deriving Repr, DecidableEq

/-- Outcomes of the external operations `load` depends on: the
`crossOriginIsolated` page global, the worker-script fetch (its `ok` flag,
`statusText` and body), the blob URL handed back for the synthesized worker,
the two `toBlobURL` conversions, and the engine's own `ffmpeg.load`. -/
structure LoadEnv where
  crossOriginIsolated : Bool
  workerFetchOk : Bool
  workerStatusText : String
  workerText : String
  workerBlobURL : String
  coreBlob : Except String String
  wasmBlob : Except String String
  engineLoad : Except String Unit
  now : Nat

structure LoadResult where
  result : Except String Unit
  state : ServiceState
  ops : List LoadOp
  logs : List LogEntry

/-- The `catch` block of `load` (lines 95-99): log the failure and rethrow
the message wrapped as `FFmpeg Load Error: ...`; `this.loaded` is untouched. -/
def loadFail (s : ServiceState) (env : LoadEnv) (logs : List LogEntry)
    (ops : List LoadOp) (m : String) : LoadResult :=
  { result := .error ("FFmpeg Load Error: " ++ m),
    state := s,
    ops := ops,
    logs := logs ++ [mkLog "error" ("Failed to load FFmpeg: " ++ m) env.now] }

/-- `FFmpegService.load`: return immediately when already loaded; otherwise
fetch the worker script, patch its relative imports (warning when nothing
was patched), package it as a blob, convert core and wasm via `toBlobURL`,
initialize the engine, and only then set `loaded := true`. -/
def load (s : ServiceState) (env : LoadEnv) : LoadResult :=
  if s.loaded then { result := .ok (), state := s, ops := [], logs := [] }
  else
    let logs0 :=
      mkLog "info" "Checking environment capabilities..." env.now ::
        ((if env.crossOriginIsolated then [] else
          [mkLog "info" "Note: SharedArrayBuffer is not available. Using single-threaded core." env.now]) ++
        [mkLog "info" "Loading FFmpeg resources..." env.now,
         mkLog "info" "Fetching worker script..." env.now])
    if env.workerFetchOk then
      let patched := patchWorkerImports baseURL env.workerText
      let logs1 := logs0 ++
        (mkLog "info" "Patching worker imports..." env.now ::
          ((if patched = env.workerText then
            [mkLog "info" "Warning: No imports patched in worker script. Regex might be mismatched." env.now]
          else []) ++
          [mkLog "info" ("Created worker blob: " ++ env.workerBlobURL) env.now]))
      match env.coreBlob with
      | .error m =>
        loadFail s env logs1 [.fetchWorker, .patchWorker, .createWorkerBlob, .fetchCore] m
      | .ok _ =>
        match env.wasmBlob with
        | .error m =>
          loadFail s env logs1
            [.fetchWorker, .patchWorker, .createWorkerBlob, .fetchCore, .fetchWasm] m
        | .ok _ =>
          let logs2 := logs1 ++ [mkLog "info" "Initializing FFmpeg engine..." env.now]
          match env.engineLoad with
          | .error m =>
            loadFail s env logs2
              [.fetchWorker, .patchWorker, .createWorkerBlob, .fetchCore, .fetchWasm,
               .initEngine] m
          | .ok _ =>
            { result := .ok (),
              state := { loaded := true },
              ops := [.fetchWorker, .patchWorker, .createWorkerBlob, .fetchCore, .fetchWasm,
                      .initEngine],
              logs := logs2 ++ [mkLog "success" "FFmpeg core loaded successfully." env.now] }
    else
      loadFail s env logs0 [.fetchWorker]
        ("Failed to fetch worker: " ++ env.workerStatusText)

/-! ### Segment (`FFmpegService.splitVideo`, lines 102-189) -/

/-- An entry of the engine's working-memory (MEMFS) root directory listing. -/
structure DirEntry where
  name : String
  isDir : Bool
deriving Repr, DecidableEq

/-- A produced clip as handed back to the caller: a `File` built from the
bytes read out of engine working memory, with the hardcoded `video/mp4`
MIME type (line 168-169). -/
structure OutFile where
  name : String
  data : List Nat
  type : String
deriving Repr, DecidableEq

/-- The caller's input: a `File` with a name and a MIME type (bytes stay
external behind the pass-through mount). -/
structure InputFile where
  name : String
  type : String
deriving Repr, DecidableEq

/-- The engine operations `splitVideo` can invoke. -/
inductive EngineOp where
  | createDir (path : String)
  | mount (dir : String) (file : InputFile)
  | exec (args : List String)
  | unmount (dir : String)
  | deleteDir (path : String)
  | listDir (path : String)
  | readFile (name : String)
  | deleteFile (name : String)
deriving Repr, DecidableEq

/-- Outcomes of the engine operations during one `splitVideo` call:
`produced` is the number of numbered output files the engine had written to
working memory when `exec` returned or failed. -/
structure SplitEnv where
  createDir : Except String Unit
  mount : Except String Unit
  exec : Except String Unit
  produced : Nat
  unmountOk : Bool
  deleteDirOk : Bool
  readFile : String → Except String (List Nat)
  deleteFileOk : String → Bool
  deleteFileErr : String → String
  now : Nat

def inputFileName : String := "input.mp4"

def mountDir : String := "/input_mount"

/-- The name under which the mount directory shows up in the root listing. -/
def mountDirEntryName : String := "input_mount"

def inputPath : String := mountDir ++ "/" ++ inputFileName

def outputPattern : String := "output_%03d.mp4"

/-- Lines 109-112: the input is re-wrapped under a fixed ASCII name, keeping
its MIME type; the bytes are not copied. -/
def safeFile (file : InputFile) : InputFile :=
  { name := inputFileName, type := file.type }

/-- `%03d`: zero-padded to at least three digits (the naming the engine's
segment muxer gives the files it writes for `outputPattern`). -/
def pad3 (i : Nat) : String :=
  if i < 10 then "00" ++ toString i
  else if i < 100 then "0" ++ toString i
  else toString i

/-- The name of the `i`-th numbered output file. -/
def outputName (i : Nat) : String := "output_" ++ pad3 i ++ ".mp4"

/-- The argument list passed to `ffmpeg.exec` (lines 140-148). -/
def execArgs (segmentDuration : Int) : List String :=
  ["-i", inputPath, "-c", "copy", "-map", "0", "-f", "segment",
   "-segment_time", toString segmentDuration, "-reset_timestamps", "1", outputPattern]

/-- The filter of the extraction loop (line 165): a non-directory entry whose
name starts with `output_` and ends with `.mp4`. -/
def isOutputEntry (e : DirEntry) : Bool :=
  !e.isDir && jsStartsWith e.name "output_" && jsEndsWith e.name ".mp4"

/-- `FS.unlink`-style removal of a file entry by name. -/
def removeFile (n : String) (fs : List DirEntry) : List DirEntry :=
  fs.filter fun e => e.name != n

/-- The root-listing entry `createDir(mountDir)` adds. -/
def mountEnt : DirEntry := { name := mountDirEntryName, isDir := true }

/-- The numbered output entries the engine has written after `exec` ran. -/
def producedEntries (n : Nat) : List DirEntry :=
  (List.range n).map fun i => { name := outputName i, isDir := false }

/-- The `try { unmount; deleteDir } catch { ... }` best-effort cleanup blocks
(lines 154-159 and 181-184): a failing unmount skips `deleteDir`; every
cleanup error is swallowed. -/
def cleanupMount (env : SplitEnv) (fs : List DirEntry) : List DirEntry × List EngineOp :=
  if env.unmountOk then
    if env.deleteDirOk then
      (removeFile mountDirEntryName fs, [.unmount mountDir, .deleteDir mountDir])
    else (fs, [.unmount mountDir, .deleteDir mountDir])
  else (fs, [.unmount mountDir])

/-- The root listing at the time `listDir('.')` runs on the success path:
the initial listing, plus the mount directory entry, plus the produced
outputs, after the best-effort unmount/removal. -/
def drainSource (env : SplitEnv) (fs0 : List DirEntry) : List DirEntry :=
  (cleanupMount env ((fs0 ++ [mountEnt]) ++ producedEntries env.produced)).1

/-- The extraction loop (lines 161-174) over the directory-listing snapshot:
for each listed entry passing `isOutputEntry`, read its bytes, build a
`video/mp4` file, and delete the entry from working memory; any engine
failure aborts the loop with that error. -/
def drainLoop (env : SplitEnv) :
    List DirEntry → List DirEntry →
      Except String (List OutFile) × List DirEntry × List EngineOp
  | [], fs => (.ok [], fs, [])
  | e :: rest, fs =>
    if isOutputEntry e then
      match env.readFile e.name with
      | .error m => (.error m, fs, [.readFile e.name])
      | .ok d =>
        if env.deleteFileOk e.name then
          match drainLoop env rest (removeFile e.name fs) with
          | (.ok files, fs2, ops) =>
            (.ok ({ name := e.name, data := d, type := "video/mp4" } :: files), fs2,
             .readFile e.name :: .deleteFile e.name :: ops)
          | (.error m, fs2, ops) =>
            (.error m, fs2, .readFile e.name :: .deleteFile e.name :: ops)
        else
          (.error (env.deleteFileErr e.name), fs, [.readFile e.name, .deleteFile e.name])
    else drainLoop env rest fs

structure SplitOutcome where
  result : Except String (List OutFile)
  state : ServiceState
  fs : List DirEntry
  progress : List Nat
  ops : List EngineOp
  logs : List LogEntry

/-- The `catch` block of `splitVideo` (lines 179-188): best-effort cleanup
with secondary errors swallowed, an error log, and the original error is
rethrown; the session state is untouched. -/
def splitFail (s : ServiceState) (env : SplitEnv) (fs : List DirEntry)
    (prog : List Nat) (ops : List EngineOp) (logs : List LogEntry) (m : String) :
    SplitOutcome :=
  { result := .error m,
    state := s,
    fs := (cleanupMount env fs).1,
    progress := prog,
    ops := ops ++ (cleanupMount env fs).2,
    logs := logs ++ [mkLog "error" ("Processing failed: " ++ m) env.now] }

/-- The body of `splitVideo` on an already-loaded session (the `try/catch`
of lines 118-188): create and mount the input directory, report 10%, run the
stream-copy segmentation, report 80%, best-effort unmount, list the working
directory and drain every matching output file, report 100% and return. -/
def splitVideoLoaded (s : ServiceState) (env : SplitEnv) (fs0 : List DirEntry)
    (file : InputFile) (segmentDuration : Int) : SplitOutcome :=
  let logs0 := [mkLog "info" "Mounting input file..." env.now]
  match env.createDir with
  | .error m => splitFail s env fs0 [] [.createDir mountDir] logs0 m
  | .ok _ =>
    let fs1 := fs0 ++ [mountEnt]
    match env.mount with
    | .error m =>
      splitFail s env fs1 [] [.createDir mountDir, .mount mountDir (safeFile file)] logs0 m
    | .ok _ =>
      let logs1 := logs0 ++
        [mkLog "info"
          ("Starting segmentation (Duration: " ++ toString segmentDuration ++ "s)...") env.now]
      let fs2 := fs1 ++ producedEntries env.produced
      let opsE := [.createDir mountDir, .mount mountDir (safeFile file),
                   .exec (execArgs segmentDuration)]
      match env.exec with
      | .error m => splitFail s env fs2 [10] opsE logs1 m
      | .ok _ =>
        let logs2 := logs1 ++
          [mkLog "success" "Segmentation complete. Processing output files..." env.now]
        let opsC := opsE ++ (cleanupMount env fs2).2 ++ [.listDir "."]
        match drainLoop env (drainSource env fs0) (drainSource env fs0) with
        | (.ok files, fs4, dops) =>
          { result := .ok files, state := s, fs := fs4, progress := [10, 80, 100],
            ops := opsC ++ dops, logs := logs2 }
        | (.error m, fs4, dops) =>
          splitFail s env fs4 [10, 80] (opsC ++ dops) logs2 m

/-- `FFmpegService.splitVideo`: bootstrap first when the session is not yet
loaded (propagating a bootstrap failure unwrapped, before any progress
report or engine operation), then run the segmentation body. -/
def splitVideo (s : ServiceState) (lenv : LoadEnv) (env : SplitEnv)
    (fs0 : List DirEntry) (file : InputFile) (segmentDuration : Int) : SplitOutcome :=
  if s.loaded then splitVideoLoaded s env fs0 file segmentDuration
  else
    let r := load s lenv
    match r.result with
    | .error m =>
      { result := .error m, state := r.state, fs := fs0, progress := [], ops := [],
        logs := r.logs }
    | .ok _ =>
      let out := splitVideoLoaded r.state env fs0 file segmentDuration
      { out with logs := r.logs ++ out.logs }

/-! ### UI: `VideoUploader.validateAndPass` (`VideoUploader.tsx`, lines 23-35) -/

/-- The metadata of a picked file the validator looks at. -/
structure FileMeta where
  type : String
  size : Nat
deriving Repr, DecidableEq

/-- What the validator did: set an error message (and never call
`onFileSelect`), or clear the error and hand the file to `onFileSelect`. -/
inductive ValidationOutcome where
  | rejected (error : String)
  | accepted
deriving Repr, DecidableEq

/-- `validateAndPass`: reject non-`video/*` MIME types, then files over
`5 * 1024 * 1024 * 1024` bytes; otherwise clear the error and pass the file on. -/
def validateAndPass (file : FileMeta) : ValidationOutcome :=
  if !jsStartsWith file.type "video/" then
    .rejected "Please upload a valid video file."
  else if file.size > 5 * 1024 * 1024 * 1024 then
    .rejected "For browser performance, please use videos under 5GB."
  else .accepted

/-! ### UI: `ClipSettings` input handler and `App` (`ClipSettings.tsx` line 33,
`App` lines 35 and 90-94) -/

/-- JS `x || d` on a number: `NaN` (a failed parse) and `0` are falsy. -/
def jsNumOr : Option Int → Int → Int
  | none, d => d
  | some n, d => if n = 0 then d else n

/-- The `onChange` handler of the split-interval input:
`setDuration(Math.max(1, parseInt(e.target.value) || 1))`.  The outcome of
the external `parseInt` builtin on the entered text is the argument
(`none` standing for `NaN`). -/
def clipSettingsOnChange (parsed : Option Int) : Int :=
  max 1 (jsNumOr parsed 1)

/-- `useState<number>(30)`: the initial split duration (App line 35). -/
def initialSplitDuration : Int := 30

/-- The `splitDuration` state after a sequence of input events (each
`setDuration` replaces the value computed from the entered text alone). -/
def splitDurationAfter (updates : List (Option Int)) : Int :=
  updates.foldl (fun _ p => clipSettingsOnChange p) initialSplitDuration

/-- `App.handleSplit` (lines 90-94): invoke `splitVideo` with the current
`splitDuration` state. -/
def appHandleSplit (s : ServiceState) (lenv : LoadEnv) (env : SplitEnv)
    (fs0 : List DirEntry) (file : InputFile) (updates : List (Option Int)) :
    SplitOutcome :=
  splitVideo s lenv env fs0 file (splitDurationAfter updates)

/-! ### Concrete fixture environments for counterexamples and witnesses -/

/-- A session with the engine already loaded. -/
def loadedState : ServiceState := { loaded := true }

/-- A fresh, not-yet-loaded session. -/
def freshState : ServiceState := { loaded := false }

/-- A bootstrap environment in which every external step succeeds. -/
def okLoadEnv : LoadEnv :=
  { crossOriginIsolated := true,
    workerFetchOk := true,
    workerStatusText := "OK",
    workerText := miniScript,
    workerBlobURL := "blob:wurl",
    coreBlob := .ok "blob:curl",
    wasmBlob := .ok "blob:wasm",
    engineLoad := .ok (),
    now := 0 }

/-- A segmentation environment in which every engine operation succeeds and
the engine produces two segments. -/
def okSplitEnv : SplitEnv :=
  { createDir := .ok (),
    mount := .ok (),
    exec := .ok (),
    produced := 2,
    unmountOk := true,
    deleteDirOk := true,
    readFile := fun _ => .ok [7],
    deleteFileOk := fun _ => true,
    deleteFileErr := fun n => "unlink failed: " ++ n,
    now := 0 }

/-- A segmentation environment in which `exec` fails after the engine has
already written one numbered output file to working memory. -/
def execFailEnv : SplitEnv :=
  { okSplitEnv with exec := .error "Aborted", produced := 1 }

/-- A segmentation environment in which the mount step fails. -/
def mountFailEnv : SplitEnv :=
  { okSplitEnv with mount := .error "WORKERFS mount failed" }

/-- A sample mp4 input file. -/
def sampleMp4 : InputFile := { name := "movie.mp4", type := "video/mp4" }

/-- A sample non-mp4 (WebM) input file. -/
def sampleWebm : InputFile := { name := "movie.webm", type := "video/webm" }

/-! ### Helper lemmas about `splitVideoLoaded` and `splitVideo` -/

theorem splitVideoLoaded_state (s : ServiceState) (env : SplitEnv) (fs0 : List DirEntry)
    (file : InputFile) (d : Int) : (splitVideoLoaded s env fs0 file d).state = s := by
  unfold splitVideoLoaded splitFail
  cases env.createDir with
  | error m => rfl
  | ok _ =>
    cases env.mount with
    | error m => rfl
    | ok _ =>
      cases env.exec with
      | error m => rfl
      | ok _ =>
        dsimp only
        split <;> rfl

/-! ### Claim theorems -/

/-- C10: `splitVideo` never changes the session's `loaded` flag: for every
call made on a loaded session, `loaded` is still true afterwards, whether
the call returns successfully or throws. -/
theorem C10_loaded_preserved (s : ServiceState) (lenv : LoadEnv) (env : SplitEnv)
    (fs0 : List DirEntry) (file : InputFile) (d : Int) (h : s.loaded = true) :
    (splitVideo s lenv env fs0 file d).state.loaded = true := by
  unfold splitVideo
  rw [h]
  simp only [if_true]
  rw [splitVideoLoaded_state]
  exact h

theorem C10_witness :
    (splitVideo loadedState okLoadEnv execFailEnv [] sampleMp4 30).state.loaded = true :=
  C10_loaded_preserved loadedState okLoadEnv execFailEnv [] sampleMp4 30 rfl

/-- C8: the file-selection validator accepts a file exactly when its MIME
type starts with `video/` and its size is at most `5 * 1024 * 1024 * 1024`
bytes; any other file yields a rejected outcome carrying an error message,
with `onFileSelect` never invoked on it. -/
theorem C8_validate (f : FileMeta) :
    (validateAndPass f = .accepted ↔
      (jsStartsWith f.type "video/" = true ∧ f.size ≤ 5 * 1024 * 1024 * 1024)) ∧
    (validateAndPass f = .accepted ∨ ∃ m, validateAndPass f = .rejected m) := by
  unfold validateAndPass
  cases h : jsStartsWith f.type "video/" with
  | false =>
    refine ⟨by simp [h], Or.inr ⟨"Please upload a valid video file.", by simp [h]⟩⟩
  | true =>
    by_cases hs : f.size ≤ 5 * 1024 * 1024 * 1024
    · have : ¬(f.size > 5 * 1024 * 1024 * 1024) := not_lt.mpr hs
      refine ⟨?_, Or.inl ?_⟩ <;> simp [this, hs]
    · have : f.size > 5 * 1024 * 1024 * 1024 := lt_of_not_le hs
      refine ⟨?_,
        Or.inr ⟨"For browser performance, please use videos under 5GB.", ?_⟩⟩ <;>
          simp [this, hs]

theorem one_le_clipSettingsOnChange (p : Option Int) : 1 ≤ clipSettingsOnChange p :=
  le_max_left 1 _

theorem one_le_duration_foldl (us : List (Option Int)) :
    ∀ init : Int, 1 ≤ init →
      1 ≤ us.foldl (fun _ p => clipSettingsOnChange p) init := by
  induction us with
  | nil => intro init h; exact h
  | cons p rest ih =>
    intro init _
    exact ih (clipSettingsOnChange p) (one_le_clipSettingsOnChange p)

/-- C9: the segment-duration setting satisfies `duration >= 1` under every
update: the input handler maps any parse outcome (including a failed parse
and values below 1) to `max 1 _`, the initial value is 30, and the `App`
handler invokes `splitVideo` with exactly that state value, so the UI never
calls `splitVideo` with a duration below 1. -/
theorem C9_duration_invariant :
    initialSplitDuration = 30 ∧
    (∀ p, 1 ≤ clipSettingsOnChange p) ∧
    (∀ us, 1 ≤ splitDurationAfter us) ∧
    (∀ (s : ServiceState) (lenv : LoadEnv) (env : SplitEnv) (fs0 : List DirEntry)
        (file : InputFile) (us : List (Option Int)),
      appHandleSplit s lenv env fs0 file us =
        splitVideo s lenv env fs0 file (splitDurationAfter us) ∧
      1 ≤ splitDurationAfter us) := by
  refine ⟨rfl, one_le_clipSettingsOnChange, ?_, ?_⟩
  · intro us
    exact one_le_duration_foldl us initialSplitDuration (by decide)
  · intro s lenv env fs0 file us
    exact ⟨rfl, one_le_duration_foldl us initialSplitDuration (by decide)⟩

theorem load_ok_shape (s : ServiceState) (env : LoadEnv) (h : s.loaded = false)
    (hok : (load s env).result = .ok ()) :
    (load s env).state = { loaded := true } ∧
    (load s env).ops =
      [.fetchWorker, .patchWorker, .createWorkerBlob, .fetchCore, .fetchWasm, .initEngine] := by
  unfold load at hok ⊢
  rw [h] at hok ⊢
  cases hw : env.workerFetchOk <;>
    cases hc : env.coreBlob <;>
    cases hwb : env.wasmBlob <;>
    cases he : env.engineLoad <;>
    simp_all [loadFail]

/-- C3: Bootstrap is idempotent.  On a session already marked loaded, `load`
returns immediately: no fetch, patch or initialization step is performed and
the state is unchanged.  Hence two sequential calls whose first succeeds
perform the fetch/patch/initialize sequence exactly once: the second call
performs no step at all, and the combined operation trace is the single full
sequence. -/
theorem C3_bootstrap_idempotent :
    (∀ (s : ServiceState) (env : LoadEnv), s.loaded = true →
      load s env = { result := .ok (), state := s, ops := [], logs := [] }) ∧
    (∀ (s : ServiceState) (env env2 : LoadEnv), s.loaded = false →
      (load s env).result = .ok () →
      load (load s env).state env2 =
        { result := .ok (), state := (load s env).state, ops := [], logs := [] } ∧
      (load s env).ops ++ (load (load s env).state env2).ops =
        [.fetchWorker, .patchWorker, .createWorkerBlob, .fetchCore, .fetchWasm,
         .initEngine]) := by
  have h1 : ∀ (s : ServiceState) (env : LoadEnv), s.loaded = true →
      load s env = { result := .ok (), state := s, ops := [], logs := [] } := by
    intro s env h
    unfold load
    rw [h]
    simp
  refine ⟨h1, ?_⟩
  intro s env env2 h hok
  obtain ⟨hst, hops⟩ := load_ok_shape s env h hok
  have h2 := h1 (load s env).state env2 (by rw [hst])
  refine ⟨by rw [h2], ?_⟩
  rw [hops, h2]
  simp

theorem C3_witness :
    load (load freshState okLoadEnv).state okLoadEnv =
      { result := .ok (), state := (load freshState okLoadEnv).state, ops := [],
        logs := [] } ∧
    (load freshState okLoadEnv).ops ++ (load (load freshState okLoadEnv).state okLoadEnv).ops =
      [.fetchWorker, .patchWorker, .createWorkerBlob, .fetchCore, .fetchWasm, .initEngine] :=
  C3_bootstrap_idempotent.2 freshState okLoadEnv okLoadEnv rfl rfl

/-- C4: whenever Bootstrap fails — in particular when any of the three
resource fetches fails (the worker fetch returning a non-success status, or
either `toBlobURL` conversion failing), or the engine initialization fails —
`load` fails with a message wrapping the underlying error as
`FFmpeg Load Error: ...`, and the session is not marked loaded. -/
theorem C4_bootstrap_failure :
    (∀ (s : ServiceState) (env : LoadEnv) (m : String),
      (load s env).result = .error m →
      (∃ u, m = "FFmpeg Load Error: " ++ u) ∧ (load s env).state.loaded = false) ∧
    (∀ (s : ServiceState) (env : LoadEnv), s.loaded = false → env.workerFetchOk = false →
      (load s env).result =
        .error ("FFmpeg Load Error: Failed to fetch worker: " ++ env.workerStatusText)) ∧
    (∀ (s : ServiceState) (env : LoadEnv) (m : String),
      s.loaded = false → env.workerFetchOk = true → env.coreBlob = .error m →
      (load s env).result = .error ("FFmpeg Load Error: " ++ m)) ∧
    (∀ (s : ServiceState) (env : LoadEnv) (m c : String),
      s.loaded = false → env.workerFetchOk = true → env.coreBlob = .ok c →
      env.wasmBlob = .error m →
      (load s env).result = .error ("FFmpeg Load Error: " ++ m)) ∧
    (∀ (s : ServiceState) (env : LoadEnv) (m c w : String),
      s.loaded = false → env.workerFetchOk = true → env.coreBlob = .ok c →
      env.wasmBlob = .ok w → env.engineLoad = .error m →
      (load s env).result = .error ("FFmpeg Load Error: " ++ m)) := by
  refine ⟨?_, ?_, ?_, ?_, ?_⟩
  · intro s env m hok
    cases hs : s.loaded
    case true =>
      unfold load at hok
      rw [hs] at hok
      simp at hok
    case false =>
      unfold load at hok ⊢
      rw [hs] at hok ⊢
      cases hw : env.workerFetchOk <;>
        cases hc : env.coreBlob <;>
        cases hwb : env.wasmBlob <;>
        cases he : env.engineLoad <;>
        simp_all [loadFail] <;>
        exact ⟨_, hok.symm⟩
  · intro s env h hw
    unfold load
    rw [h, hw]
    simp [loadFail]
    rw [← String.append_assoc]
    rfl
  · intro s env m h hw hc
    unfold load
    rw [h, hw, hc]
    simp [loadFail]
  · intro s env m c h hw hc hwb
    unfold load
    rw [h, hw, hc, hwb]
    simp [loadFail]
  · intro s env m c w h hw hc hwb he
    unfold load
    rw [h, hw, hc, hwb, he]
    simp [loadFail]

theorem C4_witness :
    (load freshState { okLoadEnv with workerFetchOk := false, workerStatusText := "Not Found" }).result =
      .error ("FFmpeg Load Error: Failed to fetch worker: " ++
        ({ okLoadEnv with workerFetchOk := false, workerStatusText := "Not Found" } : LoadEnv).workerStatusText) :=
  C4_bootstrap_failure.2.1 freshState
    { okLoadEnv with workerFetchOk := false, workerStatusText := "Not Found" } rfl rfl

/-- C5: if the mount step fails, `splitVideo` fails with the original error
message preserved (after a best-effort cleanup that swallows secondary
errors and always attempts the unmount), and the engine's segmentation
operation `exec` is never invoked. -/
theorem C5_mount_failure (s : ServiceState) (lenv : LoadEnv) (env : SplitEnv)
    (fs0 : List DirEntry) (file : InputFile) (d : Int) (m : String)
    (hs : s.loaded = true) (hc : env.createDir = .ok ()) (hm : env.mount = .error m) :
    (splitVideo s lenv env fs0 file d).result = .error m ∧
    (∀ args, EngineOp.exec args ∉ (splitVideo s lenv env fs0 file d).ops) ∧
    EngineOp.unmount mountDir ∈ (splitVideo s lenv env fs0 file d).ops := by
  unfold splitVideo
  rw [hs]
  simp only [if_true]
  unfold splitVideoLoaded
  rw [hc, hm]
  unfold splitFail cleanupMount
  cases hu : env.unmountOk <;> cases hdd : env.deleteDirOk <;>
    refine ⟨rfl, ?_, ?_⟩ <;> simp

theorem C5_witness :
    (splitVideo loadedState okLoadEnv mountFailEnv [] sampleMp4 30).result =
      .error "WORKERFS mount failed" ∧
    (∀ args, EngineOp.exec args ∉
      (splitVideo loadedState okLoadEnv mountFailEnv [] sampleMp4 30).ops) ∧
    EngineOp.unmount mountDir ∈
      (splitVideo loadedState okLoadEnv mountFailEnv [] sampleMp4 30).ops :=
  C5_mount_failure loadedState okLoadEnv mountFailEnv [] sampleMp4 30
    "WORKERFS mount failed" rfl rfl rfl

theorem splitVideoLoaded_shape (s : ServiceState) (env : SplitEnv) (fs0 : List DirEntry)
    (file : InputFile) (d : Int) :
    ((∃ m, (splitVideoLoaded s env fs0 file d).result = .error m) ∧
      ((splitVideoLoaded s env fs0 file d).progress = [] ∨
       (splitVideoLoaded s env fs0 file d).progress = [10] ∨
       (splitVideoLoaded s env fs0 file d).progress = [10, 80])) ∨
    ((∃ files, (splitVideoLoaded s env fs0 file d).result = .ok files) ∧
      (splitVideoLoaded s env fs0 file d).progress = [10, 80, 100]) := by
  unfold splitVideoLoaded
  cases hc : env.createDir with
  | error m => exact Or.inl ⟨⟨m, rfl⟩, Or.inl rfl⟩
  | ok _ =>
    cases hm : env.mount with
    | error m => exact Or.inl ⟨⟨m, rfl⟩, Or.inl rfl⟩
    | ok _ =>
      cases he : env.exec with
      | error m => exact Or.inl ⟨⟨m, rfl⟩, Or.inr (Or.inl rfl)⟩
      | ok _ =>
        cases hdr : drainLoop env (drainSource env fs0) (drainSource env fs0) with
        | mk res rest =>
          cases res with
          | ok files =>
            refine Or.inr ⟨⟨files, ?_⟩, ?_⟩ <;> simp [hdr]
          | error m =>
            refine Or.inl ⟨⟨m, ?_⟩, Or.inr (Or.inr ?_)⟩ <;> simp [hdr, splitFail]

theorem splitVideoLoaded_progressP (s : ServiceState) (env : SplitEnv)
    (fs0 : List DirEntry) (file : InputFile) (d : Int) :
    List.Chain' (· ≤ ·) (splitVideoLoaded s env fs0 file d).progress ∧
    (∀ files, (splitVideoLoaded s env fs0 file d).result = .ok files →
      (splitVideoLoaded s env fs0 file d).progress.getLast? = some 100) ∧
    (∀ m, (splitVideoLoaded s env fs0 file d).result = .error m →
      100 ∉ (splitVideoLoaded s env fs0 file d).progress) := by
  rcases splitVideoLoaded_shape s env fs0 file d with ⟨⟨m, hres⟩, hp⟩ | ⟨⟨files, hres⟩, hp⟩
  · rcases hp with hp | hp | hp <;> rw [hp] <;>
      refine ⟨by simp [List.chain'_cons], ?_, ?_⟩ <;> intro x hx <;> rw [hres] at hx <;>
      first
        | (exfalso; exact Except.noConfusion hx)
        | decide
  · rw [hp]
    refine ⟨by simp [List.chain'_cons], fun files2 _ => rfl, ?_⟩
    intro m hm
    rw [hres] at hm
    exact Except.noConfusion hm

/-- C6: for every `splitVideo` call the progress callback receives a
non-decreasing sequence of values; on success the last reported value
is 100; on failure 100 is never reported. -/
theorem C6_progress (s : ServiceState) (lenv : LoadEnv) (env : SplitEnv)
    (fs0 : List DirEntry) (file : InputFile) (d : Int) :
    List.Chain' (· ≤ ·) (splitVideo s lenv env fs0 file d).progress ∧
    (∀ files, (splitVideo s lenv env fs0 file d).result = .ok files →
      (splitVideo s lenv env fs0 file d).progress.getLast? = some 100) ∧
    (∀ m, (splitVideo s lenv env fs0 file d).result = .error m →
      100 ∉ (splitVideo s lenv env fs0 file d).progress) := by
  unfold splitVideo
  cases hs : s.loaded
  case true =>
    simp only [if_true]
    exact splitVideoLoaded_progressP s env fs0 file d
  case false =>
    simp only [Bool.false_eq_true, if_false]
    cases hl : (load s lenv).result with
    | error m0 =>
      refine ⟨by simp, ?_, ?_⟩
      · intro files hf
        exact Except.noConfusion hf
      · intro m hm
        simp
    | ok u =>
      exact splitVideoLoaded_progressP (load s lenv).state env fs0 file d

theorem C6_witness :
    (splitVideo loadedState okLoadEnv okSplitEnv [] sampleMp4 30).progress.getLast? =
      some 100 ∧
    100 ∉ (splitVideo loadedState okLoadEnv mountFailEnv [] sampleMp4 30).progress :=
  ⟨(C6_progress loadedState okLoadEnv okSplitEnv [] sampleMp4 30).2.1 _ rfl,
   (C6_progress loadedState okLoadEnv mountFailEnv [] sampleMp4 30).2.2
      "WORKERFS mount failed" rfl⟩

/-- C1 (counterexample): a `splitVideo` call in which the segmentation
operation fails after the engine has written `output_000.mp4` to working
memory leaves that numbered output entry behind — the claim's cleanup
guarantee does not hold for failing calls. -/
theorem C1_counterexample :
    (splitVideo loadedState okLoadEnv execFailEnv [] sampleMp4 30).result = .error "Aborted" ∧
    { name := "output_000.mp4", isDir := false } ∈
      (splitVideo loadedState okLoadEnv execFailEnv [] sampleMp4 30).fs ∧
    isOutputEntry { name := "output_000.mp4", isDir := false } = true := by
  refine ⟨rfl, ?_, ?_⟩ <;> decide

/-- C7 (counterexample): a successful `splitVideo` call on a WebM input
returns files whose container/MIME type is the hardcoded `video/mp4`, not
the input's — the outputs' container format is not identical to the
input's. -/
theorem C7_counterexample :
    (splitVideo loadedState okLoadEnv okSplitEnv [] sampleWebm 30).result =
      .ok [{ name := "output_000.mp4", data := [7], type := "video/mp4" },
           { name := "output_001.mp4", data := [7], type := "video/mp4" }] ∧
    ∃ f ∈ ([{ name := "output_000.mp4", data := [7], type := "video/mp4" },
            { name := "output_001.mp4", data := [7], type := "video/mp4" }] : List OutFile),
      f.type ≠ sampleWebm.type := by
  refine ⟨rfl, ?_⟩
  exact ⟨_, List.mem_cons_self _ _, by decide⟩

theorem drainLoop_ok_no_output (env : SplitEnv) :
    ∀ (l fs : List DirEntry) (files : List OutFile) (fs2 : List DirEntry)
      (ops : List EngineOp),
      (∀ e ∈ fs, isOutputEntry e = true → e ∈ l) →
      drainLoop env l fs = (.ok files, fs2, ops) →
      ∀ e ∈ fs2, isOutputEntry e = false := by
  intro l
  induction l with
  | nil =>
    intro fs files fs2 ops hinv hd e he
    simp only [drainLoop, Prod.mk.injEq] at hd
    rw [← hd.2.1] at he
    cases hout : isOutputEntry e with
    | false => rfl
    | true => exact absurd (hinv e he hout) (List.not_mem_nil e)
  | cons e0 rest ih =>
    intro fs files fs2 ops hinv hd
    rw [drainLoop] at hd
    cases h0 : isOutputEntry e0 with
    | false =>
      rw [h0] at hd
      simp only [Bool.false_eq_true, if_false] at hd
      refine ih fs files fs2 ops ?_ hd
      intro x hx hox
      rcases List.mem_cons.mp (hinv x hx hox) with h | h
      · rw [h] at hox; rw [hox] at h0; cases h0
      · exact h
    | true =>
      rw [h0] at hd
      simp only [if_true] at hd
      cases hr : env.readFile e0.name with
      | error m => rw [hr] at hd; simp at hd
      | ok d =>
        rw [hr] at hd
        cases hdel : env.deleteFileOk e0.name with
        | false => rw [hdel] at hd; simp at hd
        | true =>
          rw [hdel] at hd
          simp only [if_true] at hd
          cases hrec : drainLoop env rest (removeFile e0.name fs) with
          | mk res prest =>
            rw [hrec] at hd
            cases res with
            | error m => simp at hd
            | ok files2 =>
              simp only [Prod.mk.injEq] at hd
              obtain ⟨-, hfs2, -⟩ := hd
              obtain ⟨fs', ops'⟩ := prest
              refine ?_
              intro e he
              rw [← hfs2] at he
              refine ih (removeFile e0.name fs) files2 fs' ops' ?_ hrec e he
              intro x hx hox
              have hmem := List.mem_filter.mp hx
              have hxl := hinv x hmem.1 hox
              have hne : x.name ≠ e0.name := by
                have := hmem.2
                simpa [bne_iff_ne] using this
              rcases List.mem_cons.mp hxl with h | h
              · rw [h] at hne; exact absurd rfl hne
              · exact h

theorem splitVideoLoaded_total (s : ServiceState) (env : SplitEnv) (fs0 : List DirEntry)
    (file : InputFile) (d : Int) :
    (∃ m, (splitVideoLoaded s env fs0 file d).result = .error m) ∨
    (∃ files fs4 dops,
      drainLoop env (drainSource env fs0) (drainSource env fs0) = (.ok files, fs4, dops) ∧
      (splitVideoLoaded s env fs0 file d).result = .ok files ∧
      (splitVideoLoaded s env fs0 file d).fs = fs4 ∧
      (splitVideoLoaded s env fs0 file d).ops =
        ([.createDir mountDir, .mount mountDir (safeFile file), .exec (execArgs d)] ++
          (cleanupMount env ((fs0 ++ [mountEnt]) ++ producedEntries env.produced)).2 ++
          [.listDir "."]) ++ dops) := by
  unfold splitVideoLoaded
  cases hc : env.createDir with
  | error m => exact Or.inl ⟨m, rfl⟩
  | ok _ =>
    cases hm : env.mount with
    | error m => exact Or.inl ⟨m, rfl⟩
    | ok _ =>
      cases he : env.exec with
      | error m => exact Or.inl ⟨m, rfl⟩
      | ok _ =>
        cases hdr : drainLoop env (drainSource env fs0) (drainSource env fs0) with
        | mk res prest =>
          obtain ⟨fs4, dops⟩ := prest
          cases res with
          | error m => exact Or.inl ⟨m, rfl⟩
          | ok files => exact Or.inr ⟨files, fs4, dops, rfl, rfl, rfl, rfl⟩

theorem splitVideoLoaded_ok (s : ServiceState) (env : SplitEnv) (fs0 : List DirEntry)
    (file : InputFile) (d : Int) (files : List OutFile)
    (h : (splitVideoLoaded s env fs0 file d).result = .ok files) :
    ∃ fs4 dops,
      drainLoop env (drainSource env fs0) (drainSource env fs0) = (.ok files, fs4, dops) ∧
      (splitVideoLoaded s env fs0 file d).fs = fs4 ∧
      (splitVideoLoaded s env fs0 file d).ops =
        ([.createDir mountDir, .mount mountDir (safeFile file), .exec (execArgs d)] ++
          (cleanupMount env ((fs0 ++ [mountEnt]) ++ producedEntries env.produced)).2 ++
          [.listDir "."]) ++ dops := by
  rcases splitVideoLoaded_total s env fs0 file d with ⟨m, hres⟩ | ⟨files2, fs4, dops, hdr, hres, hfs, hops⟩
  · rw [h] at hres; exact Except.noConfusion hres
  · rw [h] at hres
    have : files2 = files := (Except.ok.inj hres).symm
    subst this
    exact ⟨fs4, dops, hdr, hfs, hops⟩

theorem splitVideo_ok_body (s : ServiceState) (lenv : LoadEnv) (env : SplitEnv)
    (fs0 : List DirEntry) (file : InputFile) (d : Int) (files : List OutFile)
    (h : (splitVideo s lenv env fs0 file d).result = .ok files) :
    ∃ s2, (splitVideoLoaded s2 env fs0 file d).result = .ok files ∧
      (splitVideo s lenv env fs0 file d).fs = (splitVideoLoaded s2 env fs0 file d).fs ∧
      (splitVideo s lenv env fs0 file d).ops = (splitVideoLoaded s2 env fs0 file d).ops := by
  unfold splitVideo at h ⊢
  cases hs : s.loaded with
  | true =>
    rw [hs] at h
    simp only [if_true] at h ⊢
    exact ⟨s, h, rfl, rfl⟩
  | false =>
    rw [hs] at h
    simp only [Bool.false_eq_true, if_false] at h ⊢
    cases hl : (load s lenv).result with
    | error m => rw [hl] at h; exact Except.noConfusion h
    | ok u =>
      rw [hl] at h
      exact ⟨(load s lenv).state, h, rfl, rfl⟩

/-- C1 (amended theorem): after a *successful* `splitVideo` call, the
engine's working-memory directory contains no entries matching the numbered
output pattern: every listed `output_*.mp4` entry was read and then deleted.
(On a failing call the outputs may remain, as the counterexample shows.) -/
theorem C1_success_cleanup (s : ServiceState) (lenv : LoadEnv) (env : SplitEnv)
    (fs0 : List DirEntry) (file : InputFile) (d : Int) (files : List OutFile)
    (h : (splitVideo s lenv env fs0 file d).result = .ok files) :
    ∀ e ∈ (splitVideo s lenv env fs0 file d).fs, isOutputEntry e = false := by
  obtain ⟨s2, h2, hfs, -⟩ := splitVideo_ok_body s lenv env fs0 file d files h
  obtain ⟨fs4, dops, hdr, hfs2, -⟩ := splitVideoLoaded_ok s2 env fs0 file d files h2
  rw [hfs, hfs2]
  exact drainLoop_ok_no_output env (drainSource env fs0) (drainSource env fs0)
    files fs4 dops (fun e he _ => he) hdr

theorem C1_success_cleanup_witness :
    isOutputEntry { name := "home", isDir := true } = false :=
  C1_success_cleanup loadedState okLoadEnv okSplitEnv [{ name := "home", isDir := true }]
    sampleMp4 30
    [{ name := "output_000.mp4", data := [7], type := "video/mp4" },
     { name := "output_001.mp4", data := [7], type := "video/mp4" }] rfl
    { name := "home", isDir := true } (by decide)

/-- The bytes `readFile` delivers for a name (empty when the environment
reports an error for it; on the success path of the extraction loop the
error case cannot occur). -/
def extractData (env : SplitEnv) (n : String) : List Nat :=
  match env.readFile n with
  | .ok d => d
  | .error _ => []

theorem drainLoop_ok_files (env : SplitEnv) :
    ∀ (l fs : List DirEntry) (files : List OutFile) (fs2 : List DirEntry)
      (ops : List EngineOp),
      drainLoop env l fs = (.ok files, fs2, ops) →
      files = (l.filter isOutputEntry).map
        (fun e => { name := e.name, data := extractData env e.name, type := "video/mp4" }) := by
  intro l
  induction l with
  | nil =>
    intro fs files fs2 ops hd
    simp only [drainLoop, Prod.mk.injEq] at hd
    have h1 : [] = files := Except.ok.inj hd.1
    simp [← h1]
  | cons e0 rest ih =>
    intro fs files fs2 ops hd
    rw [drainLoop] at hd
    cases h0 : isOutputEntry e0 with
    | false =>
      rw [h0] at hd
      simp only [Bool.false_eq_true, if_false] at hd
      rw [List.filter_cons_of_neg (by rw [h0]; exact Bool.false_ne_true)]
      exact ih fs files fs2 ops hd
    | true =>
      rw [h0] at hd
      simp only [if_true] at hd
      cases hr : env.readFile e0.name with
      | error m => rw [hr] at hd; simp at hd
      | ok d =>
        rw [hr] at hd
        cases hdel : env.deleteFileOk e0.name with
        | false => rw [hdel] at hd; simp at hd
        | true =>
          rw [hdel] at hd
          simp only [if_true] at hd
          cases hrec : drainLoop env rest (removeFile e0.name fs) with
          | mk res prest =>
            rw [hrec] at hd
            obtain ⟨fs', ops'⟩ := prest
            cases res with
            | error m => simp at hd
            | ok files2 =>
              simp only [Prod.mk.injEq] at hd
              obtain ⟨hfiles, -, -⟩ := hd
              have hfl : ({ name := e0.name, data := d, type := "video/mp4" } : OutFile) ::
                  files2 = files := Except.ok.inj hfiles
              rw [← hfl, List.filter_cons_of_pos h0, List.map_cons]
              have hdata : extractData env e0.name = d := by
                unfold extractData
                rw [hr]
              rw [hdata]
              rw [ih (removeFile e0.name fs) files2 fs' ops' hrec]

theorem outputName_data (i : Nat) :
    (outputName i).data = "output_".data ++ (pad3 i).data ++ ".mp4".data := by
  unfold outputName
  rw [String.data_append, String.data_append]

theorem jsStartsWith_outputName (i : Nat) :
    jsStartsWith (outputName i) "output_" = true := by
  unfold jsStartsWith
  rw [outputName_data, List.append_assoc]
  exact List.isPrefixOf_iff_prefix.mpr (List.prefix_append _ _)

theorem jsEndsWith_outputName (i : Nat) :
    jsEndsWith (outputName i) ".mp4" = true := by
  unfold jsEndsWith
  rw [outputName_data]
  exact List.isSuffixOf_iff_suffix.mpr (List.suffix_append _ _)

theorem isOutputEntry_outputName (i : Nat) :
    isOutputEntry { name := outputName i, isDir := false } = true := by
  unfold isOutputEntry
  simp [jsStartsWith_outputName, jsEndsWith_outputName]

/-- An entry accepted by the output filter cannot be named like the mount
directory: its name starts with `output_`. -/
theorem isOutputEntry_and_not_mount (e : DirEntry) :
    (isOutputEntry e && (e.name != mountDirEntryName)) = isOutputEntry e := by
  cases h : isOutputEntry e with
  | false => rfl
  | true =>
    have hpre : jsStartsWith e.name "output_" = true := by
      unfold isOutputEntry at h
      exact (Bool.and_eq_true_iff.mp (Bool.and_eq_true_iff.mp h).1).2
    have hne : e.name ≠ mountDirEntryName := by
      intro hEq
      rw [hEq] at hpre
      exact absurd hpre (by decide)
    simp [hne]

theorem drainSource_filter (env : SplitEnv) (fs0 : List DirEntry)
    (h0 : ∀ e ∈ fs0, isOutputEntry e = false) :
    (drainSource env fs0).filter isOutputEntry = producedEntries env.produced := by
  have hbase : ((fs0 ++ [mountEnt]) ++ producedEntries env.produced).filter isOutputEntry =
      producedEntries env.produced := by
    rw [List.filter_append, List.filter_append]
    rw [List.filter_eq_nil_iff.mpr (fun a ha => by rw [h0 a ha]; exact Bool.false_ne_true)]
    rw [show (List.filter isOutputEntry [mountEnt]) = [] from rfl]
    rw [List.filter_eq_self.mpr ?_]
    · rfl
    · intro a ha
      obtain ⟨i, -, hEq⟩ := List.mem_map.mp ha
      rw [← hEq]
      exact isOutputEntry_outputName i
  unfold drainSource cleanupMount
  cases env.unmountOk with
  | false => exact hbase
  | true =>
    cases env.deleteDirOk with
    | false => simp only [if_true, Bool.false_eq_true, if_false]; exact hbase
    | true =>
      simp only [if_true]
      unfold removeFile
      rw [List.filter_filter]
      calc ((fs0 ++ [mountEnt]) ++ producedEntries env.produced).filter
            (fun e => isOutputEntry e && (e.name != mountDirEntryName))
          = ((fs0 ++ [mountEnt]) ++ producedEntries env.produced).filter isOutputEntry := by
            apply List.filter_congr
            intro e _
            exact isOutputEntry_and_not_mount e
        _ = producedEntries env.produced := hbase

/-- C7 (amended theorem): every successful `splitVideo` call (started with no
stale numbered outputs in working memory) returns exactly the engine's
produced files, in the order listed by the engine, each named by the fixed
`output_*.mp4` pattern; segmentation is invoked with the stream-copy
argument list (`-c copy`, no transcoding), and every returned file carries
the fixed `video/mp4` container type — which matches the input's container
only when the input itself is mp4, as the counterexample shows. -/
theorem C7_success_outputs (s : ServiceState) (lenv : LoadEnv) (env : SplitEnv)
    (fs0 : List DirEntry) (file : InputFile) (d : Int) (files : List OutFile)
    (h0 : ∀ e ∈ fs0, isOutputEntry e = false)
    (h : (splitVideo s lenv env fs0 file d).result = .ok files) :
    files.map OutFile.name = (List.range env.produced).map outputName ∧
    (∀ f ∈ files, f.type = "video/mp4" ∧
      jsStartsWith f.name "output_" = true ∧ jsEndsWith f.name ".mp4" = true) ∧
    EngineOp.exec (execArgs d) ∈ (splitVideo s lenv env fs0 file d).ops := by
  obtain ⟨s2, h2, -, hops⟩ := splitVideo_ok_body s lenv env fs0 file d files h
  obtain ⟨fs4, dops, hdr, -, hops2⟩ := splitVideoLoaded_ok s2 env fs0 file d files h2
  have hfiles := drainLoop_ok_files env (drainSource env fs0) (drainSource env fs0)
    files fs4 dops hdr
  rw [drainSource_filter env fs0 h0] at hfiles
  refine ⟨?_, ?_, ?_⟩
  · rw [hfiles]
    unfold producedEntries
    rw [List.map_map, List.map_map]
    rfl
  · intro f hf
    rw [hfiles] at hf
    obtain ⟨e, he, hEq⟩ := List.mem_map.mp hf
    obtain ⟨i, -, hEq2⟩ := List.mem_map.mp he
    rw [← hEq]
    refine ⟨rfl, ?_, ?_⟩ <;> rw [← hEq2] <;>
      first
        | exact jsStartsWith_outputName i
        | exact jsEndsWith_outputName i
  · rw [hops, hops2]
    simp

theorem C7_success_outputs_witness :
    ([{ name := "output_000.mp4", data := [7], type := "video/mp4" },
      { name := "output_001.mp4", data := [7], type := "video/mp4" }] : List OutFile).map
        OutFile.name = (List.range okSplitEnv.produced).map outputName ∧
    (∀ f ∈ ([{ name := "output_000.mp4", data := [7], type := "video/mp4" },
             { name := "output_001.mp4", data := [7], type := "video/mp4" }] : List OutFile),
      f.type = "video/mp4" ∧
      jsStartsWith f.name "output_" = true ∧ jsEndsWith f.name ".mp4" = true) ∧
    EngineOp.exec (execArgs 30) ∈
      (splitVideo loadedState okLoadEnv okSplitEnv [] sampleMp4 30).ops :=
  C7_success_outputs loadedState okLoadEnv okSplitEnv [] sampleMp4 30
    [{ name := "output_000.mp4", data := [7], type := "video/mp4" },
     { name := "output_001.mp4", data := [7], type := "video/mp4" }]
    (fun e he => absurd he (List.not_mem_nil e)) rfl

/-- C2: the worker-script rewriting maps relative module references in both
minified form (`from"./classes.js"`) and spaced form (`from './util.js'`) to
absolute references rooted at the same base location (shown on the concrete
mixed-format script and for an arbitrary lone reference of either form); a
script text the pattern does not match anywhere is returned unchanged, and
in that case `load` emits the warning log event. -/
theorem C2_patch_rewrites :
    patchWorkerImports baseURL miniScript = miniScriptPatched ∧
    (∀ (sp cap : List Char) (q q2 : Char),
      (∀ c ∈ sp, isJsSpace c = true) → isQuoteChar q = true → isQuoteChar q2 = true →
      (∀ c ∈ cap, isQuoteChar c = false ∧ isLineTerm c = false) →
      replaceImports baseURL.data ("from".data ++ sp ++ (q :: '.' :: '/' :: (cap ++ [q2]))) =
        importReplacement baseURL.data cap) ∧
    (∀ s : String, hasFromImport s.data = false → patchWorkerImports baseURL s = s) ∧
    (∀ (st : ServiceState) (env : LoadEnv), st.loaded = false → env.workerFetchOk = true →
      hasFromImport env.workerText.data = false →
      mkLog "info" "Warning: No imports patched in worker script. Regex might be mismatched."
        env.now ∈ (load st env).logs) := by
  have hunchanged : ∀ s : String, hasFromImport s.data = false →
      patchWorkerImports baseURL s = s := by
    intro s hno
    unfold patchWorkerImports
    rw [replaceImports_no_match _ _ hno, string_mk_data]
  refine ⟨by decide, ?_, hunchanged, ?_⟩
  · intro sp cap q q2 hsp hq hq2 hcap
    exact replaceImports_single _ _ _ (matchFromImport_form sp cap q q2 hsp hq hq2 hcap)
  · intro st env hld hw hno
    have hpatch := hunchanged env.workerText hno
    unfold load
    rw [hld, hw]
    simp only [Bool.false_eq_true, if_false, if_true, hpatch]
    cases env.coreBlob <;> cases env.wasmBlob <;> cases env.engineLoad <;>
      simp [loadFail]

theorem C2_patch_rewrites_witness :
    patchWorkerImports baseURL miniScript = miniScriptPatched ∧
    patchWorkerImports baseURL "const x = 1;" = "const x = 1;" ∧
    mkLog "info" "Warning: No imports patched in worker script. Regex might be mismatched." 0
      ∈ (load freshState { okLoadEnv with workerText := "const x = 1;" }).logs :=
  ⟨C2_patch_rewrites.1,
   C2_patch_rewrites.2.2.1 "const x = 1;" (by decide),
   C2_patch_rewrites.2.2.2 freshState { okLoadEnv with workerText := "const x = 1;" }
     rfl rfl (by decide)⟩

end VSplit
